import Mathlib

/-!
Verification development for the embedded tabular query engine of the
Insight-IQ repository: the CSV ingestor (`initSqliteFromCsvs`), the SQL
sanitizer/executor (`executeSqlite`), the catalog (`listCsvFiles`), and the
SQL extraction cascade (`extractSql`).  Strings are modelled as `List Char`
internally (JS strings over the ASCII range used by this code); JS regular
expressions are translated matcher by matcher, with a comment wherever the
JS leftmost-match or laziness semantics matters.
-/

set_option maxRecDepth 8000

deriving instance DecidableEq for Except

namespace InsightIQ

/-- JS whitespace (the ASCII part of the `\s` class and of `String.prototype.trim`):
space, tab, newline, carriage return, vertical tab, form feed. -/
def jsSpace (c : Char) : Bool :=
  c = ' ' || c = '\t' || c = '\n' || c = '\r' || c = Char.ofNat 11 || c = Char.ofNat 12

/-- JS regex word character class `\w` = `[A-Za-z0-9_]`. -/
def wordChar (c : Char) : Bool := c.isAlphanum || c = '_'

/-- Exact (case-sensitive) prefix test on character lists. -/
def lstartsWith : List Char → List Char → Bool
  | [], _ => true
  | _ :: _, [] => false
  | p :: ps, c :: cs => p = c && lstartsWith ps cs

/-- Case-insensitive prefix test; the pattern is supplied in lowercase. -/
def lstartsWithCI : List Char → List Char → Bool
  | [], _ => true
  | _ :: _, [] => false
  | p :: ps, c :: cs => p = c.toLower && lstartsWithCI ps cs

/-- Index of the first (case-insensitive) occurrence of `pat`, as a JS
unanchored regex search over a literal pattern would find it. -/
def findSubCI (pat : List Char) : List Char → Option Nat
  | [] => if lstartsWithCI pat [] then some 0 else none
  | c :: cs => if lstartsWithCI pat (c :: cs) then some 0 else (findSubCI pat cs).map (· + 1)

/-- Case-sensitive occurrence test (JS `String.prototype.includes`). -/
def findSub (pat : List Char) : List Char → Option Nat
  | [] => if lstartsWith pat [] then some 0 else none
  | c :: cs => if lstartsWith pat (c :: cs) then some 0 else (findSub pat cs).map (· + 1)

/-- JS `String.prototype.includes` (case-sensitive). -/
def csContains (pat : String) (s : String) : Bool := (findSub pat.data s.data).isSome

/-- JS `String.prototype.trim` (ASCII whitespace). -/
def trimJs (l : List Char) : List Char :=
  ((l.dropWhile jsSpace).reverse.dropWhile jsSpace).reverse

/-- `trimJs` packaged on `String`. -/
def jsTrim (s : String) : String := ⟨trimJs s.data⟩

/-- Characters up to (excluding) the first occurrence of `pat`; the whole list
if `pat` never occurs.  Models a lazy capture `([\s\S]*?)` terminated by the
literal `pat` (or `$`). -/
def takeUntilSub (pat : List Char) : List Char → List Char
  | [] => []
  | c :: cs => if lstartsWith pat (c :: cs) then [] else c :: takeUntilSub pat cs

/-- JS `substring(0, n)` / `substr` prefix. -/
def takeString (s : String) (n : Nat) : String := ⟨s.data.take n⟩

/-- The backtick character. -/
def bq : Char := Char.ofNat 96

/-- A markdown fence: three backticks. -/
def fenceMark : List Char := [bq, bq, bq]

/-- `cleaned.replace(/;+\s*$/, "")`: the regex matches a final run of
semicolons followed only by whitespace; replacing it with the empty string
drops that run and the whitespace after it. -/
def stripTrailingSemis (l : List Char) : List Char :=
  let r := l.reverse
  let r1 := r.dropWhile jsSpace
  if r1.head? = some ';' then (r1.dropWhile (fun c => c = ';')).reverse else l

/-- `cleaned.replace(/^```[\w]*\n?/i, "")`: an opening fence with an optional
language tag and optional newline, anchored at the start. -/
def stripLeadFence (l : List Char) : List Char :=
  if lstartsWith fenceMark l then
    let r := (l.drop 3).dropWhile wordChar
    match r with
    | '\n' :: t => t
    | _ => r
  else l

/-- Suffix test. -/
def lendsWith (pat l : List Char) : Bool := lstartsWith pat.reverse l.reverse

/-- `cleaned.replace(/\n?```$/i, "")`: a closing fence, with the preceding
newline removed as well when present (the leftmost match includes it). -/
def stripTrailFence (l : List Char) : List Char :=
  if lendsWith ('\n' :: fenceMark) l then l.take (l.length - 4)
  else if lendsWith fenceMark l then l.take (l.length - 3)
  else l

/-- Lines 90–96 of the executor: trim, drop trailing semicolons, drop
markdown fences (in that order). -/
def cleanSql (s : String) : String :=
  ⟨stripTrailFence (stripLeadFence (stripTrailingSemis (trimJs s.data)))⟩

/-- The lowercase pattern for the keyword SELECT. -/
def selectPat : List Char := "select".data

/-- The SELECT gate of lines 100–119.  The test regex
`(?:--[\s\S]*?\n|\/\*[\s\S]*?\*\/|\s)*SELECT/i` is unanchored and its
comment/whitespace prefix group may repeat zero times, so it succeeds exactly
when `SELECT` occurs case-insensitively anywhere in the text; line 116 then
re-finds that first occurrence with `search(/SELECT/i)` and line 118 drops
everything before it.  `postSelectL` returns the suffix of the text from the
first occurrence of `SELECT`, or `none` when the gate rejects. -/
def postSelectL (l : List Char) : Option (List Char) :=
  (findSubCI selectPat l).map (fun i => l.drop i)

/-- A JS `\b` boundary immediately before a word character, given the
preceding character (`none` at the start of the text). -/
def boundary : Option Char → Bool
  | none => true
  | some c => !wordChar c

/-- Scan for the first match of `\bWHERE\s+` (case-insensitive) and return
the suffix directly after the `WHERE` keyword, tracking the previous
character for the word boundary. -/
def findWhereAux : Option Char → List Char → Option (List Char)
  | _, [] => none
  | prev, c :: cs =>
    if boundary prev && lstartsWithCI "where".data (c :: cs) &&
        (match (c :: cs).drop 5 with | d :: _ => jsSpace d | [] => false) then
      some ((c :: cs).drop 5)
    else findWhereAux (some c) cs

/-- `\bGROUP\s+BY` at the head of the suffix (boundary checked by caller). -/
def groupByAt (l : List Char) : Bool :=
  lstartsWithCI "group".data l &&
    (let r := l.drop 5
     !(r.takeWhile jsSpace).isEmpty && lstartsWithCI "by".data (r.dropWhile jsSpace))

/-- `\bORDER\s+BY` at the head of the suffix (boundary checked by caller). -/
def orderByAt (l : List Char) : Bool :=
  lstartsWithCI "order".data l &&
    (let r := l.drop 5
     !(r.takeWhile jsSpace).isEmpty && lstartsWithCI "by".data (r.dropWhile jsSpace))

/-- One of the WHERE-body terminators `\bGROUP\s+BY | \bORDER\s+BY | \bLIMIT`
matches at this position (the `$` alternative is the end of the scan). -/
def whereTermAt (prev : Option Char) (l : List Char) : Bool :=
  boundary prev && (groupByAt l || orderByAt l || lstartsWithCI "limit".data l)

/-- The lazy capture `([\s\S]*?)` of the WHERE regex: characters up to the
first terminator position (or the end of the statement). -/
def captureWhereBody : Option Char → List Char → List Char
  | _, [] => []
  | prev, c :: cs => if whereTermAt prev (c :: cs) then [] else c :: captureWhereBody (some c) cs

/-- The incomplete-WHERE pattern `^\[?[\w]+\]?\s*(AND|OR)?\s*$/i` of line 129,
applied to the trimmed clause body: an optional opening bracket, a nonempty
identifier, an optional closing bracket, then optionally a bare AND/OR. -/
def incompletePattern (l : List Char) : Bool :=
  let l1 := match l with
    | '[' :: t => t
    | _ => l
  let w := l1.takeWhile wordChar
  let r := l1.dropWhile wordChar
  if w.isEmpty then false
  else
    let r1 := match r with
      | ']' :: t => t
      | _ => r
    let r2 := r1.dropWhile jsSpace
    let r3 := if lstartsWithCI "and".data r2 then r2.drop 3
              else if lstartsWithCI "or".data r2 then r2.drop 2
              else r2
    (r3.dropWhile jsSpace).isEmpty

/-- Lines 121–137: if the statement has a `\bWHERE\s+`, extract the clause
body with `\bWHERE\s+([\s\S]*?)(?:\bGROUP\s+BY|\bORDER\s+BY|\bLIMIT|$)/i`,
trim it, and flag it when it matches the incomplete pattern.  Returns the
trimmed body exactly when the statement is to be rejected. -/
def whereReject (l : List Char) : Option (List Char) :=
  match findWhereAux none l with
  | none => none
  | some afterWhere =>
    let ws := afterWhere.takeWhile jsSpace
    let rest := afterWhere.dropWhile jsSpace
    let prev0 : Option Char := match ws.reverse with
      | c :: _ => some c
      | [] => some 'e'
    let wc := trimJs (captureWhereBody prev0 rest)
    if incompletePattern wc then some wc else none

/-- `\blimit\s+\d+/i` (line 140): a word-boundary LIMIT followed by
whitespace and a digit, anywhere in the statement. -/
def hasLimitAux : Option Char → List Char → Bool
  | _, [] => false
  | prev, c :: cs =>
    (boundary prev && lstartsWithCI "limit".data (c :: cs) &&
      (let r := (c :: cs).drop 5
       !(r.takeWhile jsSpace).isEmpty &&
         (match r.dropWhile jsSpace with | d :: _ => d.isDigit | [] => false)))
    || hasLimitAux (some c) cs

/-- The statement already carries a `LIMIT <number>` clause. -/
def hasLimitClause (l : List Char) : Bool := hasLimitAux none l

/-- Lines 90–146 of `executeSqlite`: the pure sanitization phase.  It either
rejects with the error message the executor returns (`executed: false`), or
produces the `limited` statement that line 149 forwards to the embedded
engine.  `limit` is the requested row limit (the JS parameter defaults
to 200 at the call boundary). -/
def sanitizeSqlite (sql : String) (limit : Int) : Except String String :=
  let cleaned := cleanSql sql
  match postSelectL cleaned.data with
  | none =>
    if cleaned.length < 10 then
      Except.error "SQL query appears to be empty or too short."
    else
      Except.error ("Only SELECT queries are allowed for security reasons. Query must start with SELECT. Got: " ++ takeString cleaned 50 ++ "...")
  | some c2 =>
    match whereReject c2 with
    | some wc =>
      Except.error ("SQL query appears incomplete. The WHERE clause is missing a condition. Found: WHERE " ++ (⟨wc⟩ : String))
    | none =>
      if hasLimitClause c2 then Except.ok (⟨c2⟩ : String)
      else Except.ok ((⟨c2⟩ : String) ++ " LIMIT " ++ toString (max 1 (min 1000 limit)))

/-- Modelled from the spec: the claim's hypothesis "after trimming, stripping
markdown fences and trailing semicolons, and skipping leading SQL comments and
whitespace, begins with the case-insensitive keyword SELECT".  Skips `-- …`
line comments, `/* … */` block comments and whitespace (fuel-bounded by the
text length), then tests for the keyword. -/
def skipCommentsWsGo : Nat → List Char → List Char
  | 0, l => l
  | n + 1, l =>
    if lstartsWith "--".data l then
      let r := (l.drop 2).dropWhile (fun c => c ≠ '\n')
      skipCommentsWsGo n (r.drop 1)
    else if lstartsWith "/*".data l then
      match findSub "*/".data (l.drop 2) with
      | some i => skipCommentsWsGo n ((l.drop 2).drop (i + 2))
      | none => []
    else
      match l with
      | c :: cs => if jsSpace c then skipCommentsWsGo n cs else l
      | [] => []

/-- Modelled from the spec: leading comments and whitespace skipped. -/
def skipCommentsWs (l : List Char) : List Char := skipCommentsWsGo l.length l

/-- Modelled from the spec: the statement, after skipping leading SQL comments
and whitespace, begins with the case-insensitive keyword SELECT. -/
def specBeginsWithSelect (s : String) : Bool :=
  lstartsWithCI "select".data (skipCommentsWs s.data)

/-! ### JS values and `Number(string)` conversion -/

/-- A JS value as it flows through this code: a string, a finite number
(modelled as a rational; the code only ever keeps finite numbers), or
`null`. -/
inductive JSValue
  | str (s : String)
  | num (q : ℚ)
  | null
deriving DecidableEq, Repr

/-- The result of JS `Number(string)`: NaN, a signed infinity, or a finite
value (modelled exactly as a rational). -/
inductive JsNum
  | nan
  | inf (neg : Bool)
  | fin (q : ℚ)
deriving DecidableEq, Repr

/-- Numeric value of a digit string (base 10). -/
def digitsVal (l : List Char) : ℕ :=
  l.foldl (fun a c => 10 * a + (c.toNat - 48)) 0

/-- Value of a digit in radix `r` (hex letters allowed for `r = 16`). -/
def radixDigit (r : ℕ) (c : Char) : Option ℕ :=
  let v :=
    if c.isDigit then some (c.toNat - 48)
    else if 'a' ≤ c.toLower && c.toLower ≤ 'f' then some (c.toLower.toNat - 87)
    else none
  match v with
  | some d => if d < r then some d else none
  | none => none

/-- A nonempty all-valid digit string in radix `r`, or `none`. -/
def parseRadix (r : ℕ) (l : List Char) : Option ℕ :=
  match l with
  | [] => none
  | _ =>
    l.foldl (fun acc c =>
      match acc, radixDigit r c with
      | some a, some d => some (r * a + d)
      | _, _ => none) (some 0)

/-- Exponent part after `e`/`E`: optional sign, then a nonempty digit string
consuming the whole rest. -/
def parseExp (l : List Char) : Option ℤ :=
  let p := match l with
    | '+' :: t => ((1 : ℤ), t)
    | '-' :: t => ((-1 : ℤ), t)
    | t => ((1 : ℤ), t)
  let ds := p.2.takeWhile Char.isDigit
  if ds.isEmpty || !(p.2.dropWhile Char.isDigit).isEmpty then none
  else some (p.1 * (digitsVal ds : ℤ))

/-- An unsigned JS decimal literal (`digits [. digits] [exp]` or
`. digits [exp]`), required to consume the whole list. -/
def parseDecBody (l : List Char) : Option ℚ :=
  let ip := l.takeWhile Char.isDigit
  let r1 := l.dropWhile Char.isDigit
  match r1 with
  | [] => if ip.isEmpty then none else some (digitsVal ip : ℚ)
  | '.' :: r2 =>
    let fp := r2.takeWhile Char.isDigit
    let r3 := r2.dropWhile Char.isDigit
    if ip.isEmpty && fp.isEmpty then none
    else
      let base : ℚ := (digitsVal ip : ℚ) + (digitsVal fp : ℚ) / ((10 : ℚ) ^ fp.length)
      match r3 with
      | [] => some base
      | e :: r4 =>
        if e = 'e' || e = 'E' then (parseExp r4).map (fun x => base * (10 : ℚ) ^ x)
        else none
  | e :: r4 =>
    if (e = 'e' || e = 'E') && !ip.isEmpty then
      (parseExp r4).map (fun x => (digitsVal ip : ℚ) * (10 : ℚ) ^ x)
    else none

/-- JS `Number(string)` (ECMAScript StringToNumber): trim whitespace; empty
means 0; an unsigned hex/octal/binary literal; otherwise an optional sign
followed by `Infinity` or a decimal literal; anything else is NaN. -/
def jsNumber (s : String) : JsNum :=
  let t := trimJs s.data
  match t with
  | [] => JsNum.fin 0
  | _ =>
    if lstartsWith "0x".data t || lstartsWith "0X".data t then
      match parseRadix 16 (t.drop 2) with
      | some n => JsNum.fin (n : ℚ)
      | none => JsNum.nan
    else if lstartsWith "0o".data t || lstartsWith "0O".data t then
      match parseRadix 8 (t.drop 2) with
      | some n => JsNum.fin (n : ℚ)
      | none => JsNum.nan
    else if lstartsWith "0b".data t || lstartsWith "0B".data t then
      match parseRadix 2 (t.drop 2) with
      | some n => JsNum.fin (n : ℚ)
      | none => JsNum.nan
    else
      let neg := t.head? = some '-'
      let r := match t with
        | '+' :: u => u
        | '-' :: u => u
        | u => u
      if r = "Infinity".data then JsNum.inf neg
      else
        match parseDecBody r with
        | some q => JsNum.fin (if neg then -q else q)
        | none => JsNum.nan

/-- `isNaN` on a `Number(…)` result. -/
def isNaNJs : JsNum → Bool
  | JsNum.nan => true
  | _ => false

/-- `isFinite` on a `Number(…)` result. -/
def isFiniteJs : JsNum → Bool
  | JsNum.fin _ => true
  | _ => false

/-- Lines 162–181 of the executor, per cell: a string that is nonempty, not
NaN under `Number`, and nonempty after trim is replaced by its numeric value
when that value is finite; every other value is kept as is. -/
def coerceCell (v : JSValue) : JSValue :=
  match v with
  | JSValue.str s =>
    if s ≠ "" && !isNaNJs (jsNumber s) && jsTrim s ≠ "" then
      match jsNumber s with
      | JsNum.fin q => JSValue.num q
      | _ => JSValue.str s
    else JSValue.str s
  | v => v

/-! ### The query executor -/

/-- A result row from the embedded engine: an object, i.e. an ordered list of
key/value properties. -/
abbrev Row := List (String × JSValue)

/-- The executor's output contract. -/
inductive QueryResult
  | success (rows : List Row) (fields : List String)
  | failure (error : String)
deriving DecidableEq, Repr

/-- The `executed` discriminator of a `QueryResult`. -/
def QueryResult.executed : QueryResult → Bool
  | QueryResult.success _ _ => true
  | QueryResult.failure _ => false

/-- The file-system state the executor and catalog observe: whether the data
directory exists, and the entries it contains. -/
structure FsState where
  dataDirExists : Bool
  files : List String
deriving DecidableEq, Repr

/-- `f.endsWith(".csv")`. -/
def isCsvName (f : String) : Bool := lendsWith ".csv".data f.data

/-- `path.basename(f, ".csv")` for a plain directory entry. -/
def stripCsvExt (f : String) : String :=
  if isCsvName f then ⟨f.data.take (f.data.length - 4)⟩ else f

/-- Lines 211–217: list the `*.csv` entries of the data directory as
`{name, file}` pairs; empty when the directory is missing. -/
def listCsvFiles (st : FsState) : List (String × String) :=
  if st.dataDirExists then (st.files.filter isCsvName).map (fun f => (stripCsvExt f, f))
  else []

/-- The column-name regex `/['"`]?(\w+)['\"`]?/` of line 193: the capture of
its first match, i.e. the first run of word characters, which may be entered
through a single preceding quote character. -/
def columnMatch : List Char → Option (List Char)
  | [] => none
  | c :: cs =>
    if wordChar c then some ((c :: cs).takeWhile wordChar)
    else if c = '\'' || c = '"' || c = bq then
      match cs with
      | d :: _ =>
        if wordChar d then some (cs.takeWhile wordChar)
        else columnMatch cs
      | [] => none
    else columnMatch cs

/-- Lines 184–207: rewrite an engine error message into actionable text, by
case-sensitive substring tests in the order the code performs them.  An empty
raw message stands for a missing `e.message` and becomes "Unknown error". -/
def translateError (st : FsState) (rawMsg : String) : String :=
  let m := if rawMsg = "" then "Unknown error" else rawMsg
  if csContains "no such table" m || csContains "Table" m then
    "Table not found. Available tables: " ++
      String.intercalate ", " ((listCsvFiles st).map Prod.fst)
  else if csContains "no such column" m || csContains "Column" m ||
      csContains "Cannot read properties of undefined" m then
    let columnName := match columnMatch m.data with
      | some w => (⟨w⟩ : String)
      | none => "unknown"
    "Column \"" ++ columnName ++ "\" not found. Common issues:\n" ++
      "- \"order_value\" doesn't exist - use payments.[payment_value] or SUM([order_items].[price] + [order_items].[freight_value])\n" ++
      "- Check that column names use square brackets: [column_name]\n" ++
      "- Verify the table schema matches your query"
  else if csContains "syntax error" m || csContains "Syntax" m then
    "SQL syntax error: " ++ m ++ "\n" ++
      "Make sure to use SQLite-compatible syntax and square brackets for identifiers."
  else if csContains "undefined" m then
    "Query error: " ++ m ++ "\n" ++
      "This often means a column or table doesn't exist. Check your table and column names."
  else m

/-- Line 163–181 applied to one row: coerce every cell, keys unchanged. -/
def processRow (r : Row) : Row := r.map (fun kv => (kv.1, coerceCell kv.2))

/-- `executeSqlite` (lines 80–209).  The embedded engine (`DB.exec`) is a
parameter mapping the forwarded statement to either rows or a raised error
message; the file system is the `FsState` parameter.  The JS `limit`
parameter defaults to 200 at the call boundary. -/
def executeSqlite (st : FsState) (engine : String → Except String (List Row))
    (sql : String) (limit : Int) : QueryResult :=
  if st.dataDirExists = false then
    QueryResult.failure "Local data directory not found. Add CSV files into /data and restart."
  else
    match sanitizeSqlite sql limit with
    | Except.error e => QueryResult.failure e
    | Except.ok limited =>
      match engine limited with
      | Except.error msg => QueryResult.failure (translateError st msg)
      | Except.ok rows =>
        match rows with
        | [] => QueryResult.success [] []
        | r0 :: _ => QueryResult.success (rows.map processRow) (r0.map Prod.fst)

/-! ### The SQL extraction cascade (`extractSql`, client `Index.tsx`) -/

/-- Pattern 1, `/SQL:\s*([\s\S]*?)(?:\n\n|$)/i`: after the first occurrence
of `SQL:`, the greedy `\s*` eats the whitespace run, then the lazy capture
extends to the first `\n\n` or the end; the trimmed capture is accepted when
nonempty. -/
def p1Extract (t : List Char) : Option (List Char) :=
  match findSubCI "sql:".data t with
  | none => none
  | some i =>
    let rest := (t.drop (i + 4)).dropWhile jsSpace
    let s := trimJs (takeUntilSub "\n\n".data rest)
    if s.isEmpty then none else some s

/-- A fenced block `openPat … ``` `: the capture between the first opening
marker and the first closing fence after it (leftmost-match semantics: a
later opening marker would also place a closing fence after the first one,
so the first opening marker is the one the regex uses). -/
def fencedCapture (openPat : List Char) (t : List Char) : Option (List Char) :=
  match findSubCI openPat t with
  | none => none
  | some i =>
    let rest := t.drop (i + openPat.length)
    match findSubCI fenceMark rest with
    | none => none
    | some j => some (rest.take j)

/-- Pattern 2: a ```` ```sql ```` block, else a bare ```` ``` ```` block;
the trimmed capture is accepted when nonempty and containing `SELECT`
case-insensitively. -/
def p2Extract (t : List Char) : Option (List Char) :=
  let cap := match fencedCapture ("".data ++ fenceMark ++ "sql\n".data) t with
    | some c => some c
    | none => fencedCapture (fenceMark ++ "\n".data) t
  match cap with
  | none => none
  | some c =>
    let s := trimJs c
    if !s.isEmpty && (findSubCI selectPat s).isSome then some s else none

/-- The terminators of pattern 3: `\n\n`, a fence, or `SQL:`
(case-insensitive, as the whole regex carries the `i` flag). -/
def p3TermAt (l : List Char) : Bool :=
  lstartsWith "\n\n".data l || lstartsWith fenceMark l || lstartsWithCI "sql:".data l

/-- The lazy tail of pattern 3's capture, after the literal `SELECT`. -/
def p3Tail : List Char → List Char
  | [] => []
  | c :: cs => if p3TermAt (c :: cs) then [] else c :: p3Tail cs

/-- Pattern 3, `/(SELECT[\s\S]*?)(?:\n\n|```|SQL:|$)/i`: from the first
`SELECT` to the first terminator; the trimmed capture is accepted when longer
than 10 characters. -/
def p3Extract (t : List Char) : Option (List Char) :=
  match findSubCI selectPat t with
  | none => none
  | some i =>
    let rest := t.drop i
    let s := trimJs (rest.take 6 ++ p3Tail (rest.drop 6))
    if !s.isEmpty && 10 < s.length then some s else none

/-- Pattern 4, `/(SELECT[\s\S]*)/i` then `split(/\n\n/)[0]`,
`substring(0, 5000)` and trim: accepted when longer than 10 characters. -/
def p4Extract (t : List Char) : Option (List Char) :=
  match findSubCI selectPat t with
  | none => none
  | some i =>
    let s0 := trimJs (t.drop i)
    let s := trimJs ((takeUntilSub "\n\n".data s0).take 5000)
    if !s.isEmpty && 10 < s.length then some s else none

/-- The ordered extraction cascade on character lists: the first matcher that
produces a value wins; `none` when no pattern matches (and for empty input,
line `if (!text) return null`). -/
def extractSqlL (t : List Char) : Option (List Char) :=
  if t.isEmpty then none
  else
    match p1Extract t with
    | some s => some s
    | none =>
      match p2Extract t with
      | some s => some s
      | none =>
        match p3Extract t with
        | some s => some s
        | none => p4Extract t

/-- `extractSql` from the client page: extract a SQL statement from free
model-output text, or `null`. -/
def extractSql (text : String) : Option String :=
  (extractSqlL text.data).map (fun l => (⟨l⟩ : String))

/-! ### CSV ingestion (`initSqliteFromCsvs`, lines 11–78)

The directory scan and `csv-parse` (with `columns: true`, no casting) are the
external boundary: their output is a list of parsed files, each a list of
records mapping header names to string field values (`csv-parse` yields every
field as a string; an empty field is the empty string).  The alasql database
is modelled as an association list from table name to the list of inserted
positional rows; `CREATE TABLE IF NOT EXISTS`, `SELECT COUNT(1)` and the
per-record `INSERT` loop act on it. -/

/-- A parsed CSV record: an ordered object mapping column names to values. -/
abbrev CsvRecord := List (String × JSValue)

/-- One successfully parsed CSV file. -/
structure CsvFile where
  name : String
  records : List CsvRecord
deriving DecidableEq, Repr

/-- `sanitizeName` (line 227–229): replace every character outside
`[A-Za-z0-9_]` with `_`. -/
def sanitizeName (s : String) : String :=
  ⟨s.data.map (fun c => if c.isAlphanum || c = '_' then c else '_')⟩

/-- JS property read `r[c]`: `none` models `undefined`. -/
def recGet (r : CsvRecord) (k : String) : Option JSValue :=
  match r with
  | [] => none
  | (k1, v) :: rest => if k1 = k then some v else recGet rest k

/-- JS property write `r[k] = v`: replace in place when the key exists,
append otherwise (JS object key order). -/
def recSet (r : CsvRecord) (k : String) (v : JSValue) : CsvRecord :=
  if r.any (fun p => p.1 = k) then r.map (fun p => if p.1 = k then (k, v) else p)
  else r ++ [(k, v)]

/-- JS string conversion of a record value, as used under `String(r[c])`.
Records built from `csv-parse` and the derivation rules only hold strings
(and nulls, which line 70 filters out first), so only the `str` case is ever
reached on the ingestion path. -/
def jsStringOf : JSValue → String
  | JSValue.str s => s
  | JSValue.null => "null"
  | JSValue.num q => toString q

/-- JS `(x || d)` for a possibly missing record value, with a string default:
`undefined`, `null` and the empty string are falsy. -/
def jsFalsyOr (v : Option JSValue) (d : String) : String :=
  match v with
  | none => d
  | some JSValue.null => d
  | some (JSValue.str s) => if s = "" then d else s
  | some (JSValue.num q) => if q = 0 then d else jsStringOf (JSValue.num q)

/-- JS `parseInt(s, 10)`: skip leading whitespace, optional sign, then the
longest digit prefix; NaN (`none`) when there is no digit. -/
def parseIntJs (s : String) : Option Int :=
  let t := s.data.dropWhile jsSpace
  let p := match t with
    | '-' :: u => (true, u)
    | '+' :: u => (false, u)
    | u => (false, u)
  let ds := p.2.takeWhile Char.isDigit
  if ds.isEmpty then none
  else some (if p.1 then -(digitsVal ds : Int) else (digitsVal ds : Int))

/-- JS `substr(start, len)`. -/
def substrJs (s : String) (start len : Nat) : String := ⟨(s.data.drop start).take len⟩

/-- JS `substr(start)`. -/
def substrFrom (s : String) (start : Nat) : String := ⟨s.data.drop start⟩

/-- Lines 25–45: the derived date columns for `olist_orders_dataset`.  The
quarter uses `parseInt` on the month; a NaN month propagates into the
template literal as the text `NaN`. -/
def deriveOrders (r : CsvRecord) : CsvRecord :=
  let ts := jsTrim (jsFalsyOr (recGet r "order_purchase_timestamp") "")
  if ts ≠ "" && 10 ≤ ts.length then
    let day := substrJs ts 0 2
    let month := substrJs ts 3 2
    let year := substrJs ts 6 4
    let timePart := if 11 < ts.length then substrFrom ts 11 else "00:00"
    let iso := year ++ "-" ++ month ++ "-" ++ day ++ " " ++ timePart
    let qStr := match parseIntJs (if month = "" then "0" else month) with
      | some m => toString (((max 1 m) - 1).toNat / 3 + 1)
      | none => "NaN"
    let r1 := recSet r "order_purchase_iso" (JSValue.str iso)
    let r2 := recSet r1 "order_year_month" (JSValue.str (year ++ "-" ++ month))
    recSet r2 "order_quarter" (JSValue.str (year ++ "-Q" ++ qStr))
  else
    let r1 := recSet r "order_purchase_iso" JSValue.null
    let r2 := recSet r1 "order_year_month" JSValue.null
    recSet r2 "order_quarter" JSValue.null

/-- `.replace(/[^0-9.-]+/g, "")`: keep only digits, dots and minus signs. -/
def cleanNumStr (s : String) : String :=
  ⟨s.data.filter (fun c => c.isDigit || c = '.' || c = '-')⟩

/-- Lines 47–54: the cleaned numeric columns for `olist_order_items_dataset`;
an empty cleaned string becomes null. -/
def deriveItems (r : CsvRecord) : CsvRecord :=
  let p := cleanNumStr (jsFalsyOr (recGet r "price") "")
  let f := cleanNumStr (jsFalsyOr (recGet r "freight_value") "")
  let r1 := recSet r "price_num" (if p = "" then JSValue.null else JSValue.str p)
  recSet r1 "freight_num" (if f = "" then JSValue.null else JSValue.str f)

/-- The in-memory alasql database: table name to inserted positional rows. -/
abbrev Store := List (String × List (List JSValue))

/-- The rows of a table, `none` when the table does not exist. -/
def storeGet : Store → String → Option (List (List JSValue))
  | [], _ => none
  | (n, rs) :: rest, t => if n = t then some rs else storeGet rest t

/-- `SELECT COUNT(1) FROM [t]` (0 for a missing table, as on line 65 the
guard only fires on a positive count). -/
def rowCount (st : Store) (t : String) : Nat :=
  ((storeGet st t).getD []).length

/-- `CREATE TABLE IF NOT EXISTS [t] (…)` (line 60–61). -/
def createIfNotExists (st : Store) (t : String) : Store :=
  if (storeGet st t).isSome then st else st ++ [(t, [])]

/-- The per-record `INSERT` loop (lines 67–73): append every row to the
(first) table named `t`. -/
def insertAll : Store → String → List (List JSValue) → Store
  | [], _, _ => []
  | (n, rs) :: rest, t, rows =>
    if n = t then (n, rs ++ rows) :: rest
    else (n, rs) :: insertAll rest t rows

/-- Line 69–71, one cell: `r[c] === undefined || r[c] === null ? null :
String(r[c])`. -/
def rowCell (r : CsvRecord) (c : String) : JSValue :=
  match recGet r c with
  | none => JSValue.null
  | some JSValue.null => JSValue.null
  | some v => JSValue.str (jsStringOf v)

/-- The positional values inserted for one record. -/
def rowVals (cols : List String) (r : CsvRecord) : List JSValue :=
  cols.map (rowCell r)

/-- The sanitized table name of a CSV file. -/
def tableOf (f : CsvFile) : String := sanitizeName (stripCsvExt f.name)

/-- The loop body of `initSqliteFromCsvs` for one parsed file (lines 16–76):
skip empty files; apply the table-specific derivations; create the table if
absent; skip the insert when the table already holds rows; otherwise insert
every record positionally over the first record's key set. -/
def ingestFile (st : Store) (f : CsvFile) : Store :=
  if f.records.isEmpty then st
  else
    let table := tableOf f
    let recs1 := if table = "olist_orders_dataset" then f.records.map deriveOrders
                 else f.records
    let recs2 := if table = "olist_order_items_dataset" then recs1.map deriveItems
                 else recs1
    let cols := (recs2.headD []).map Prod.fst
    let st1 := createIfNotExists st table
    if 0 < rowCount st1 table then st1
    else insertAll st1 table (recs2.map (rowVals cols))

/-- `initSqliteFromCsvs` (lines 11–78) over the parsed CSV files of the data
directory, in directory order. -/
def initSqliteFromCsvs (st : Store) (files : List CsvFile) : Store :=
  files.foldl ingestFile st

/-! ## Store lemmas for the idempotence of ingestion -/

theorem storeGet_append_left (st st2 : Store) (u : String) (l : List (List JSValue))
    (h : storeGet st u = some l) : storeGet (st ++ st2) u = some l := by
  induction st with
  | nil => simp [storeGet] at h
  | cons p rest ih =>
    obtain ⟨n, rs⟩ := p
    by_cases hn : n = u
    · simp [storeGet, hn] at h ⊢; exact h
    · simp [storeGet, hn] at h ⊢; exact ih h

theorem storeGet_append_right_of_none (st st2 : Store) (u : String)
    (h : storeGet st u = none) : storeGet (st ++ st2) u = storeGet st2 u := by
  induction st with
  | nil => simp
  | cons p rest ih =>
    obtain ⟨n, rs⟩ := p
    by_cases hn : n = u
    · simp [storeGet, hn] at h
    · simp [storeGet, hn] at h ⊢; exact ih h

theorem storeGet_create_self (st : Store) (t : String) :
    storeGet (createIfNotExists st t) t = some ((storeGet st t).getD []) := by
  unfold createIfNotExists
  rcases h : storeGet st t with _ | l
  · simp [h]
    rw [storeGet_append_right_of_none st [(t, [])] t h]
    simp [storeGet]
  · simp [h]

theorem storeGet_create_of_some (st : Store) (t u : String) (l : List (List JSValue))
    (h : storeGet st u = some l) : storeGet (createIfNotExists st t) u = some l := by
  unfold createIfNotExists
  split
  · exact h
  · exact storeGet_append_left st [(t, [])] u l h

theorem storeGet_insertAll_self (st : Store) (t : String) (rows : List (List JSValue)) :
    storeGet (insertAll st t rows) t = (storeGet st t).map (fun rs => rs ++ rows) := by
  induction st with
  | nil => simp [insertAll, storeGet]
  | cons p rest ih =>
    obtain ⟨n, rs⟩ := p
    by_cases hn : n = t
    · simp [insertAll, storeGet, hn]
    · simp [insertAll, storeGet, hn]; exact ih

theorem storeGet_insertAll_ne (st : Store) (t u : String) (rows : List (List JSValue))
    (h : u ≠ t) : storeGet (insertAll st t rows) u = storeGet st u := by
  induction st with
  | nil => simp [insertAll]
  | cons p rest ih =>
    obtain ⟨n, rs⟩ := p
    by_cases hn : n = t
    · subst hn
      have hnu : n ≠ u := fun he => h he.symm
      simp [insertAll, storeGet, hnu]
    · by_cases hu : n = u
      · subst hu
        simp [insertAll, storeGet, hn]
      · simp [insertAll, storeGet, hn, hu]; exact ih

theorem rowCount_pos_of_get (st : Store) (t : String) (l : List (List JSValue))
    (h : storeGet st t = some l) (hl : l ≠ []) : 0 < rowCount st t := by
  simp [rowCount, h]
  exact List.length_pos.mpr hl

theorem get_of_rowCount_pos (st : Store) (t : String) (h : 0 < rowCount st t) :
    ∃ l, storeGet st t = some l ∧ l ≠ [] := by
  rcases hg : storeGet st t with _ | l
  · simp [rowCount, hg] at h
  · refine ⟨l, rfl, ?_⟩
    intro he
    rw [he] at hg
    simp [rowCount, hg] at h

theorem ingestFile_noop (st : Store) (f : CsvFile) (h : 0 < rowCount st (tableOf f)) :
    ingestFile st f = st := by
  obtain ⟨l, hget, _⟩ := get_of_rowCount_pos st (tableOf f) h
  have hcr : createIfNotExists st (tableOf f) = st := by
    unfold createIfNotExists
    simp [hget]
  by_cases he : f.records.isEmpty
  · simp [ingestFile, he]
  · simp only [ingestFile, he, Bool.false_eq_true, if_false]
    rw [hcr]
    simp [h]

theorem recs_length (f : CsvFile) :
    ((if tableOf f = "olist_order_items_dataset"
        then (if tableOf f = "olist_orders_dataset" then f.records.map deriveOrders
              else f.records).map deriveItems
        else (if tableOf f = "olist_orders_dataset" then f.records.map deriveOrders
              else f.records)).length) = f.records.length := by
  split <;> split <;> simp

theorem ingestFile_pos (st : Store) (f : CsvFile) (h : ¬ f.records.isEmpty) :
    0 < rowCount (ingestFile st f) (tableOf f) := by
  have hrec : f.records ≠ [] := by
    intro he
    rw [he] at h
    simp at h
  simp only [ingestFile, h, Bool.false_eq_true, if_false]
  by_cases hc : 0 < rowCount (createIfNotExists st (tableOf f)) (tableOf f)
  · simp [hc]
  · simp only [hc, if_false]
    rw [rowCount, storeGet_insertAll_self, storeGet_create_self]
    simp only [Option.map_some', Option.getD_some, List.length_append, List.length_map]
    rw [recs_length]
    have h2 : 0 < f.records.length := List.length_pos.mpr hrec
    omega

theorem rowCount_pos_ingest_mono (st : Store) (f : CsvFile) (t : String)
    (h : 0 < rowCount st t) : 0 < rowCount (ingestFile st f) t := by
  obtain ⟨l, hget, hl⟩ := get_of_rowCount_pos st t h
  have hcr := storeGet_create_of_some st (tableOf f) t l hget
  by_cases he : f.records.isEmpty
  · simpa [ingestFile, he] using h
  · simp only [ingestFile, he, Bool.false_eq_true, if_false]
    by_cases hc : 0 < rowCount (createIfNotExists st (tableOf f)) (tableOf f)
    · simp only [hc, if_true]
      exact rowCount_pos_of_get (createIfNotExists st (tableOf f)) t l hcr hl
    · simp only [hc, if_false]
      by_cases ht : t = tableOf f
      · exfalso
        exact hc (ht ▸ rowCount_pos_of_get (createIfNotExists st (tableOf f)) t l hcr hl)
      · apply rowCount_pos_of_get _ t l ?_ hl
        rw [storeGet_insertAll_ne _ _ _ _ ht]
        exact hcr

theorem rowCount_pos_foldl_mono (fs : List CsvFile) (st : Store) (t : String)
    (h : 0 < rowCount st t) : 0 < rowCount (fs.foldl ingestFile st) t := by
  induction fs generalizing st with
  | nil => simpa using h
  | cons g gs ih => exact ih (ingestFile st g) (rowCount_pos_ingest_mono st g t h)

theorem rowCount_pos_foldl_of_mem (fs : List CsvFile) (st : Store) (f : CsvFile)
    (h : f.records ≠ []) :
    f ∈ fs → 0 < rowCount (fs.foldl ingestFile st) (tableOf f) := by
  induction fs generalizing st with
  | nil => intro hmem; cases hmem
  | cons g gs ih =>
    intro hmem
    rcases List.mem_cons.mp hmem with he | hm
    · subst he
      refine rowCount_pos_foldl_mono gs (ingestFile st f) (tableOf f) ?_
      apply ingestFile_pos
      simpa using h
    · exact ih (ingestFile st g) hm

theorem foldl_ingest_noop (fs : List CsvFile) (st : Store)
    (h : ∀ f ∈ fs, f.records = [] ∨ 0 < rowCount st (tableOf f)) :
    fs.foldl ingestFile st = st := by
  induction fs with
  | nil => rfl
  | cons g gs ih =>
    have hg : ingestFile st g = st := by
      rcases h g (List.mem_cons_self g gs) with he | hp
      · simp [ingestFile, he]
      · exact ingestFile_noop st g hp
    simp only [List.foldl_cons, hg]
    exact ih (fun f hf => h f (List.mem_cons_of_mem g hf))

/-! ## Claims -/

/-- C2: ingestion is idempotent.  Running `initSqliteFromCsvs` a second time
over the same parsed CSV set leaves the store unchanged (so every table's
row count is that of a single run), and for a table that already holds at
least one row the per-file ingestion step performs no inserts at all (the
row-count guard of lines 63–65 fires before any `INSERT`). -/
theorem initSqliteFromCsvs_idempotent :
    (∀ (st : Store) (files : List CsvFile),
      initSqliteFromCsvs (initSqliteFromCsvs st files) files =
        initSqliteFromCsvs st files) ∧
    (∀ (st : Store) (f : CsvFile), 0 < rowCount st (tableOf f) →
      ingestFile st f = st) := by
  constructor
  · intro st files
    apply foldl_ingest_noop
    intro f hf
    by_cases h : f.records = []
    · exact Or.inl h
    · exact Or.inr (rowCount_pos_foldl_of_mem files st f h hf)
  · exact ingestFile_noop

/-- C2 witness: a concrete double ingestion and a concrete no-op step. -/
theorem initSqliteFromCsvs_idempotent_witness :
    initSqliteFromCsvs (initSqliteFromCsvs [] [⟨"orders.csv", [[("a", JSValue.str "1")]]⟩])
        [⟨"orders.csv", [[("a", JSValue.str "1")]]⟩] =
      initSqliteFromCsvs [] [⟨"orders.csv", [[("a", JSValue.str "1")]]⟩] ∧
    ingestFile [("orders", [[JSValue.str "x"]])] ⟨"orders.csv", [[("a", JSValue.str "1")]]⟩ =
      [("orders", [[JSValue.str "x"]])] :=
  ⟨initSqliteFromCsvs_idempotent.1 [] [⟨"orders.csv", [[("a", JSValue.str "1")]]⟩],
   initSqliteFromCsvs_idempotent.2 [("orders", [[JSValue.str "x"]])]
     ⟨"orders.csv", [[("a", JSValue.str "1")]]⟩ (by decide)⟩

/-- C5 counterexample: an empty CSV field reaches line 70 as the empty string
(`csv-parse` with `columns: true` yields every present field as a string), and
`r[c] === undefined || r[c] === null ? null : String(r[c])` stores it as the
empty string, not as null — contradicting "every empty or missing CSV field is
stored as null, never as the empty string". -/
theorem ingest_empty_field_counterexample :
    initSqliteFromCsvs [] [⟨"t.csv", [[("a", JSValue.str "")]]⟩] =
      [("t", [[JSValue.str ""]])] ∧ JSValue.str "" ≠ JSValue.null := by
  constructor
  · decide
  · decide

/-- C5 (amended): every cell stored by ingestion is a string or null, and a
missing (undefined) or null field value is stored as null; however an empty
CSV field — which the parser delivers as the empty string — is stored as the
empty string, not as null. -/
theorem rowVals_string_or_null :
    (∀ (cols : List String) (r : CsvRecord) (v : JSValue), v ∈ rowVals cols r →
      v = JSValue.null ∨ ∃ s, v = JSValue.str s) ∧
    (∀ (r : CsvRecord) (c : String),
      recGet r c = none ∨ recGet r c = some JSValue.null →
      rowCell r c = JSValue.null) ∧
    rowCell [("a", JSValue.str "")] "a" = JSValue.str "" := by
  refine ⟨?_, ?_, by decide⟩
  · intro cols r v hv
    simp only [rowVals, List.mem_map] at hv
    obtain ⟨c, _, hc⟩ := hv
    rcases h : recGet r c with _ | w
    · left; rw [← hc]; simp [rowCell, h]
    · rcases w with s | q | _
      · right; refine ⟨jsStringOf (JSValue.str s), ?_⟩; rw [← hc]; simp [rowCell, h]
      · right; refine ⟨jsStringOf (JSValue.num q), ?_⟩; rw [← hc]; simp [rowCell, h]
      · left; rw [← hc]; simp [rowCell, h]
  · intro r c h
    rcases h with h | h <;> simp [rowCell, h]

/-- C5 witness: one stored string cell and one missing field stored as null. -/
theorem rowVals_string_or_null_witness :
    (JSValue.str "x" = JSValue.null ∨ ∃ s, JSValue.str "x" = JSValue.str s) ∧
    rowCell [("a", JSValue.str "x")] "b" = JSValue.null :=
  ⟨rowVals_string_or_null.1 ["a"] [("a", JSValue.str "x")] (JSValue.str "x") (by decide),
   rowVals_string_or_null.2.1 [("a", JSValue.str "x")] "b" (Or.inl (by decide))⟩

/-- C7: when the data directory does not exist the executor fails fast with
the missing-directory error (lines 81–87), for every input and every engine —
in particular it never consults the engine and never raises. -/
theorem execute_missing_dir (st : FsState) (engine : String → Except String (List Row))
    (sql : String) (lim : Int) (h : st.dataDirExists = false) :
    executeSqlite st engine sql lim =
      QueryResult.failure "Local data directory not found. Add CSV files into /data and restart." ∧
    (executeSqlite st engine sql lim).executed = false := by
  have h1 : executeSqlite st engine sql lim =
      QueryResult.failure "Local data directory not found. Add CSV files into /data and restart." := by
    simp [executeSqlite, h]
  exact ⟨h1, by rw [h1]; rfl⟩

/-- C7 witness. -/
theorem execute_missing_dir_witness :
    executeSqlite ⟨false, []⟩ (fun _ => Except.ok []) "SELECT 1" 200 =
      QueryResult.failure "Local data directory not found. Add CSV files into /data and restart." ∧
    (executeSqlite ⟨false, []⟩ (fun _ => Except.ok []) "SELECT 1" 200).executed = false :=
  execute_missing_dir ⟨false, []⟩ (fun _ => Except.ok []) "SELECT 1" 200 rfl

/-- C10: a cleaned input with no case-insensitive SELECT occurrence and fewer
than 10 characters is rejected with the dedicated too-short message
(lines 103–108), which differs from the SELECT-only rejection that longer
SELECT-free inputs receive. -/
theorem sanitize_short_rejection (s : String) (lim : Int)
    (hsel : findSubCI selectPat (cleanSql s).data = none)
    (hlen : (cleanSql s).length < 10) :
    sanitizeSqlite s lim = Except.error "SQL query appears to be empty or too short." ∧
    (Except.error "SQL query appears to be empty or too short." : Except String String) ≠
      sanitizeSqlite "DROP TABLE x" 200 := by
  have hps : postSelectL (cleanSql s).data = none := by
    simp [postSelectL, hsel]
  constructor
  · simp [sanitizeSqlite, hps, hlen]
  · decide

/-- C10 witness. -/
theorem sanitize_short_rejection_witness :
    sanitizeSqlite "DROP x" 200 = Except.error "SQL query appears to be empty or too short." ∧
    (Except.error "SQL query appears to be empty or too short." : Except String String) ≠
      sanitizeSqlite "DROP TABLE x" 200 :=
  sanitize_short_rejection "DROP x" 200 (by decide) (by decide)

/-- C1 counterexample: `"DELETE FROM x WHERE id IN (SELECT 1)"` does not begin
with SELECT after skipping leading comments and whitespace, yet the sanitizer
does not reject it: the unanchored gate regex finds the inner `SELECT`, the
statement is truncated to `"SELECT 1)"`, and that text is forwarded to the
engine (here an engine that raises its own input as the error message, so the
failure result exhibits exactly what was forwarded). -/
theorem sanitize_non_select_counterexample :
    specBeginsWithSelect (cleanSql "DELETE FROM x WHERE id IN (SELECT 1)") = false ∧
    sanitizeSqlite "DELETE FROM x WHERE id IN (SELECT 1)" 200 =
      Except.ok "SELECT 1) LIMIT 200" ∧
    executeSqlite ⟨true, []⟩ (fun s => Except.error s)
        "DELETE FROM x WHERE id IN (SELECT 1)" 200 =
      QueryResult.failure "SELECT 1) LIMIT 200" := by
  refine ⟨by decide, by decide, by decide⟩

/-- C1 (amended): for every input whose cleaned text contains no occurrence of
the case-insensitive token SELECT at all and is at least 10 characters long
(e.g. `"DROP TABLE x"`, `"DELETE FROM x"`), the sanitizer rejects with a
reason reporting the first 50 characters of the offending text, and the
statement is never forwarded to the engine (the result is the same failure for
every engine).  An input whose cleaned text does contain SELECT somewhere is
not rejected by the SELECT gate: it is truncated to start at the first SELECT
occurrence, and the truncated statement is then either rejected by the
incomplete-WHERE check (quoting the clause fragment) or forwarded to the
engine with the LIMIT handling applied. -/
theorem sanitize_rejects_selectless :
    (∀ (s : String) (lim : Int),
      findSubCI selectPat (cleanSql s).data = none → 10 ≤ (cleanSql s).length →
      sanitizeSqlite s lim =
        Except.error ("Only SELECT queries are allowed for security reasons. Query must start with SELECT. Got: " ++
          takeString (cleanSql s) 50 ++ "...") ∧
      ∀ (st : FsState) (engine : String → Except String (List Row)),
        st.dataDirExists = true →
        executeSqlite st engine s lim =
          QueryResult.failure ("Only SELECT queries are allowed for security reasons. Query must start with SELECT. Got: " ++
            takeString (cleanSql s) 50 ++ "...")) ∧
    (∀ (s : String) (lim : Int) (c2 : List Char),
      postSelectL (cleanSql s).data = some c2 →
      (∃ wc, whereReject c2 = some wc ∧
        sanitizeSqlite s lim =
          Except.error ("SQL query appears incomplete. The WHERE clause is missing a condition. Found: WHERE " ++ (⟨wc⟩ : String))) ∨
      sanitizeSqlite s lim =
        Except.ok (if hasLimitClause c2 then (⟨c2⟩ : String)
                   else (⟨c2⟩ : String) ++ " LIMIT " ++ toString (max 1 (min 1000 lim)))) := by
  constructor
  · intro s lim hsel hlen
    have hps : postSelectL (cleanSql s).data = none := by
      simp [postSelectL, hsel]
    have hlt : ¬ ((cleanSql s).length < 10) := by omega
    have h1 : sanitizeSqlite s lim =
        Except.error ("Only SELECT queries are allowed for security reasons. Query must start with SELECT. Got: " ++
          takeString (cleanSql s) 50 ++ "...") := by
      simp [sanitizeSqlite, hps, hlt]
    refine ⟨h1, ?_⟩
    intro st engine hdir
    simp [executeSqlite, hdir, h1]
  · intro s lim c2 hps
    rcases hwr : whereReject c2 with _ | wc
    · right
      simp only [sanitizeSqlite, hps, hwr]
      by_cases hl : hasLimitClause c2 <;> simp [hl]
    · left
      refine ⟨wc, rfl, ?_⟩
      simp [sanitizeSqlite, hps, hwr]

/-- C1 witness: the amended rejection at `"DROP TABLE x"`; the truncation
dichotomy at `"DELETE FROM x WHERE id IN (SELECT 1)"` (forwarded as
`"SELECT 1) LIMIT 200"`) and at `"DROP TABLE x; SELECT * FROM t WHERE c"`
(truncated, then rejected by the incomplete-WHERE check). -/
theorem sanitize_rejects_selectless_witness :
    (sanitizeSqlite "DROP TABLE x" 200 =
      Except.error ("Only SELECT queries are allowed for security reasons. Query must start with SELECT. Got: " ++
        takeString (cleanSql "DROP TABLE x") 50 ++ "...") ∧
    executeSqlite ⟨true, []⟩ (fun _ => Except.ok []) "DROP TABLE x" 200 =
      QueryResult.failure ("Only SELECT queries are allowed for security reasons. Query must start with SELECT. Got: " ++
        takeString (cleanSql "DROP TABLE x") 50 ++ "...")) ∧
    ((∃ wc, whereReject "SELECT 1)".data = some wc ∧
        sanitizeSqlite "DELETE FROM x WHERE id IN (SELECT 1)" 200 =
          Except.error ("SQL query appears incomplete. The WHERE clause is missing a condition. Found: WHERE " ++ (⟨wc⟩ : String))) ∨
      sanitizeSqlite "DELETE FROM x WHERE id IN (SELECT 1)" 200 =
        Except.ok (if hasLimitClause "SELECT 1)".data then (⟨"SELECT 1)".data⟩ : String)
                   else (⟨"SELECT 1)".data⟩ : String) ++ " LIMIT " ++ toString (max 1 (min 1000 (200 : Int))))) ∧
    ((∃ wc, whereReject "SELECT * FROM t WHERE c".data = some wc ∧
        sanitizeSqlite "DROP TABLE x; SELECT * FROM t WHERE c" 200 =
          Except.error ("SQL query appears incomplete. The WHERE clause is missing a condition. Found: WHERE " ++ (⟨wc⟩ : String))) ∨
      sanitizeSqlite "DROP TABLE x; SELECT * FROM t WHERE c" 200 =
        Except.ok (if hasLimitClause "SELECT * FROM t WHERE c".data then (⟨"SELECT * FROM t WHERE c".data⟩ : String)
                   else (⟨"SELECT * FROM t WHERE c".data⟩ : String) ++ " LIMIT " ++ toString (max 1 (min 1000 (200 : Int))))) :=
  ⟨⟨(sanitize_rejects_selectless.1 "DROP TABLE x" 200 (by decide) (by decide)).1,
    (sanitize_rejects_selectless.1 "DROP TABLE x" 200 (by decide) (by decide)).2
      ⟨true, []⟩ (fun _ => Except.ok []) rfl⟩,
   sanitize_rejects_selectless.2 "DELETE FROM x WHERE id IN (SELECT 1)" 200
     "SELECT 1)".data (by decide),
   sanitize_rejects_selectless.2 "DROP TABLE x; SELECT * FROM t WHERE c" 200
     "SELECT * FROM t WHERE c".data (by decide)⟩

/-- C3: every statement the sanitizer accepts is executed either unchanged
(when it already contains a `LIMIT <n>` clause — no upper bound is enforced on
it) or as the cleaned statement followed by `" LIMIT n"` with
`n = clamp(requestedLimit, 1, 1000)` (lines 139–146; the JS `limit` parameter
defaults to 200). -/
theorem limit_injection (s : String) (lim : Int) (out : String)
    (h : sanitizeSqlite s lim = Except.ok out) :
    ∃ c2 : List Char, postSelectL (cleanSql s).data = some c2 ∧
      out = (if hasLimitClause c2 then (⟨c2⟩ : String)
             else (⟨c2⟩ : String) ++ " LIMIT " ++ toString (max 1 (min 1000 lim))) := by
  rcases hps : postSelectL (cleanSql s).data with _ | c2
  · exfalso
    simp [sanitizeSqlite, hps] at h
    split at h <;> simp at h
  · refine ⟨c2, rfl, ?_⟩
    simp only [sanitizeSqlite, hps] at h
    rcases hwr : whereReject c2 with _ | wc
    · rw [hwr] at h
      by_cases hl : hasLimitClause c2
      · simp [hl] at h ⊢
        exact h.symm
      · simp [hl] at h ⊢
        exact h.symm
    · rw [hwr] at h
      simp at h

/-- C3 witness: no LIMIT present, so ` LIMIT 200` is appended; an explicit
LIMIT (even a huge one) passes through unchanged. -/
theorem limit_injection_witness :
    (∃ c2 : List Char, postSelectL (cleanSql "SELECT 1 FROM tbl").data = some c2 ∧
      "SELECT 1 FROM tbl LIMIT 200" =
        (if hasLimitClause c2 then (⟨c2⟩ : String)
         else (⟨c2⟩ : String) ++ " LIMIT " ++ toString (max 1 (min 1000 (200 : Int))))) ∧
    (∃ c2 : List Char, postSelectL (cleanSql "SELECT a FROM t LIMIT 999999").data = some c2 ∧
      "SELECT a FROM t LIMIT 999999" =
        (if hasLimitClause c2 then (⟨c2⟩ : String)
         else (⟨c2⟩ : String) ++ " LIMIT " ++ toString (max 1 (min 1000 (5 : Int))))) :=
  ⟨limit_injection "SELECT 1 FROM tbl" 200 "SELECT 1 FROM tbl LIMIT 200" (by decide),
   limit_injection "SELECT a FROM t LIMIT 999999" 5 "SELECT a FROM t LIMIT 999999" (by decide)⟩

/-- C6: incomplete-WHERE detection (lines 121–137).  The two concrete spec
examples, then in general: whenever the WHERE-clause body (up to GROUP BY /
ORDER BY / LIMIT / end of statement), trimmed, matches the single-identifier-
with-optional-bare-AND/OR pattern, the sanitizer rejects quoting that
fragment; and whenever the WHERE check does not fire, the statement is
accepted. -/
theorem incomplete_where_detection :
    sanitizeSqlite "SELECT * FROM t WHERE customer_state" 200 =
      Except.error "SQL query appears incomplete. The WHERE clause is missing a condition. Found: WHERE customer_state" ∧
    sanitizeSqlite "SELECT * FROM t WHERE customer_state = 'SP'" 200 =
      Except.ok "SELECT * FROM t WHERE customer_state = 'SP' LIMIT 200" ∧
    (∀ (s : String) (lim : Int) (c2 wc : List Char),
      postSelectL (cleanSql s).data = some c2 → whereReject c2 = some wc →
      sanitizeSqlite s lim =
        Except.error ("SQL query appears incomplete. The WHERE clause is missing a condition. Found: WHERE " ++ (⟨wc⟩ : String))) ∧
    (∀ (s : String) (lim : Int) (c2 : List Char),
      postSelectL (cleanSql s).data = some c2 → whereReject c2 = none →
      ∃ out, sanitizeSqlite s lim = Except.ok out) := by
  refine ⟨by decide, by decide, ?_, ?_⟩
  · intro s lim c2 wc h1 h2
    simp [sanitizeSqlite, h1, h2]
  · intro s lim c2 h1 h2
    refine ⟨if hasLimitClause c2 then (⟨c2⟩ : String)
            else (⟨c2⟩ : String) ++ " LIMIT " ++ toString (max 1 (min 1000 lim)), ?_⟩
    simp only [sanitizeSqlite, h1, h2]
    by_cases hl : hasLimitClause c2 <;> simp [hl]

/-- C6 witness: the general rejection applied at a concrete dangling AND. -/
theorem incomplete_where_detection_witness :
    sanitizeSqlite "SELECT a FROM t WHERE x AND" 7 =
      Except.error ("SQL query appears incomplete. The WHERE clause is missing a condition. Found: WHERE " ++ (⟨"x AND".data⟩ : String)) ∧
    (∃ out, sanitizeSqlite "SELECT a FROM t ORDER BY b" 7 = Except.ok out) :=
  ⟨incomplete_where_detection.2.2.1 "SELECT a FROM t WHERE x AND" 7
      "SELECT a FROM t WHERE x AND".data "x AND".data (by decide) (by decide),
   incomplete_where_detection.2.2.2 "SELECT a FROM t ORDER BY b" 7
      "SELECT a FROM t ORDER BY b".data (by decide) (by decide)⟩

/-- C8: every error the embedded engine raises on the forwarded statement is
caught and returned as a structured failure result (`executed = false`,
lines 184–207), and a "no such table" message is rewritten to one carrying
the live list of catalog table names (line 189–190, read from the data
directory via `listCsvFiles`). -/
theorem engine_error_translation :
    (∀ (st : FsState) (engine : String → Except String (List Row)) (sql : String)
        (lim : Int) (out msg : String),
      st.dataDirExists = true → sanitizeSqlite sql lim = Except.ok out →
      engine out = Except.error msg →
      executeSqlite st engine sql lim = QueryResult.failure (translateError st msg) ∧
      (executeSqlite st engine sql lim).executed = false) ∧
    (∀ (st : FsState) (msg : String), csContains "no such table" msg = true →
      translateError st msg = "Table not found. Available tables: " ++
        String.intercalate ", " ((listCsvFiles st).map Prod.fst)) := by
  constructor
  · intro st engine sql lim out msg hdir hs he
    have h1 : executeSqlite st engine sql lim =
        QueryResult.failure (translateError st msg) := by
      simp [executeSqlite, hdir, hs, he]
    exact ⟨h1, by rw [h1]; rfl⟩
  · intro st msg h
    have hne : msg ≠ "" := by
      intro he
      rw [he] at h
      exact absurd h (by decide)
    simp [translateError, hne, h]

/-- C8 witness: an engine raising "no such table: foo" against a catalog
holding `orders.csv`. -/
theorem engine_error_translation_witness :
    executeSqlite ⟨true, ["orders.csv"]⟩ (fun _ => Except.error "no such table: foo")
        "SELECT 1 FROM t" 200 =
      QueryResult.failure (translateError ⟨true, ["orders.csv"]⟩ "no such table: foo") ∧
    translateError ⟨true, ["orders.csv"]⟩ "no such table: foo" =
      "Table not found. Available tables: " ++
        String.intercalate ", " ((listCsvFiles ⟨true, ["orders.csv"]⟩).map Prod.fst) :=
  ⟨(engine_error_translation.1 ⟨true, ["orders.csv"]⟩
      (fun _ => Except.error "no such table: foo") "SELECT 1 FROM t" 200
      "SELECT 1 FROM t LIMIT 200" "no such table: foo" rfl (by decide) rfl).1,
   engine_error_translation.2 ⟨true, ["orders.csv"]⟩ "no such table: foo" (by decide)⟩

theorem jsNumber_24560 : jsNumber "245.60" = JsNum.fin (2456 / 10) := by
  have h1 : jsNumber "245.60" =
      JsNum.fin (((digitsVal ['2', '4', '5'] : ℕ) : ℚ) +
        ((digitsVal ['6', '0'] : ℕ) : ℚ) / (10 : ℚ) ^ 2) := rfl
  have d1 : digitsVal ['2', '4', '5'] = 245 := by decide
  have d2 : digitsVal ['6', '0'] = 60 := by decide
  rw [h1, d1, d2]
  norm_num

theorem jsNumber_105 : jsNumber "10.5" = JsNum.fin (21 / 2) := by
  have h1 : jsNumber "10.5" =
      JsNum.fin (((digitsVal ['1', '0'] : ℕ) : ℚ) +
        ((digitsVal ['5'] : ℕ) : ℚ) / (10 : ℚ) ^ 1) := rfl
  have d1 : digitsVal ['1', '0'] = 10 := by decide
  have d2 : digitsVal ['5'] = 5 := by decide
  rw [h1, d1, d2]
  norm_num

theorem coerce_24560 : coerceCell (JSValue.str "245.60") = JSValue.num (2456 / 10) := by
  have h1 : coerceCell (JSValue.str "245.60") =
      JSValue.num (((digitsVal ['2', '4', '5'] : ℕ) : ℚ) +
        ((digitsVal ['6', '0'] : ℕ) : ℚ) / (10 : ℚ) ^ 2) := rfl
  have d1 : digitsVal ['2', '4', '5'] = 245 := by decide
  have d2 : digitsVal ['6', '0'] = 60 := by decide
  rw [h1, d1, d2]
  norm_num

/-- C4: result-shaping coercion.  A cell holding a nonempty,
non-whitespace-only string whose JS `Number` value is finite is replaced by
that numeric value; any other cell (non-numeric string, whitespace-only or
empty string, null) is returned unchanged; `"245.60"` becomes the number
245.6, `"SP"` and null survive untouched; and on every successful execution
the coercion is applied to every cell of every returned row. -/
theorem numeric_coercion :
    (∀ (s : String) (q : ℚ), jsNumber s = JsNum.fin q → jsTrim s ≠ "" →
      coerceCell (JSValue.str s) = JSValue.num q) ∧
    (∀ s : String, isFiniteJs (jsNumber s) = false →
      coerceCell (JSValue.str s) = JSValue.str s) ∧
    (∀ s : String, jsTrim s = "" → coerceCell (JSValue.str s) = JSValue.str s) ∧
    coerceCell JSValue.null = JSValue.null ∧
    coerceCell (JSValue.str "245.60") = JSValue.num (2456 / 10) ∧
    coerceCell (JSValue.str "SP") = JSValue.str "SP" ∧
    (∀ (st : FsState) (engine : String → Except String (List Row)) (sql : String)
        (lim : Int) (out : String) (r0 : Row) (rs : List Row),
      st.dataDirExists = true → sanitizeSqlite sql lim = Except.ok out →
      engine out = Except.ok (r0 :: rs) →
      executeSqlite st engine sql lim =
        QueryResult.success ((r0 :: rs).map processRow) (r0.map Prod.fst)) := by
  refine ⟨?_, ?_, ?_, by decide, coerce_24560, by decide, ?_⟩
  · intro s q hq ht
    have hs : s ≠ "" := by
      intro he
      rw [he] at ht
      exact ht rfl
    simp [coerceCell, hq, isNaNJs, hs, ht]
  · intro s h
    rcases hn : jsNumber s with _ | b | q
    · simp [coerceCell, hn, isNaNJs]
    · simp only [coerceCell, hn]
      split <;> rfl
    · rw [hn] at h
      simp [isFiniteJs] at h
  · intro s h
    simp [coerceCell, h]
  · intro st engine sql lim out r0 rs hdir hs he
    simp [executeSqlite, hdir, hs, he]

/-- C4 witness: coercion applied through a full execution. -/
theorem numeric_coercion_witness :
    coerceCell (JSValue.str "10.5") = JSValue.num (21 / 2) ∧
    coerceCell (JSValue.str " ") = JSValue.str " " ∧
    executeSqlite ⟨true, []⟩ (fun _ => Except.ok [[("amount", JSValue.str "245.60")]])
        "SELECT 1 FROM t" 200 =
      QueryResult.success ([[("amount", JSValue.str "245.60")]].map processRow)
        ([("amount", JSValue.str "245.60")].map Prod.fst) :=
  ⟨numeric_coercion.1 "10.5" (21 / 2) jsNumber_105 (by decide),
   numeric_coercion.2.2.1 " " (by decide),
   numeric_coercion.2.2.2.2.2.2 ⟨true, []⟩
     (fun _ => Except.ok [[("amount", JSValue.str "245.60")]]) "SELECT 1 FROM t" 200
     "SELECT 1 FROM t LIMIT 200" [("amount", JSValue.str "245.60")] [] rfl (by decide) rfl⟩

/-- C9: extraction precedence.  Whenever the `SQL:`-prefixed matcher (the
first of the ordered cascade) yields content, that content is the extraction
result, regardless of any fenced code block elsewhere in the text; when none
of the four matchers yields anything, extraction returns nothing rather than
an error; and on a concrete text containing both a `SQL:` line and a fenced
block, the `SQL:` line wins. -/
theorem extraction_precedence :
    (∀ (t s : List Char), p1Extract t = some s → extractSqlL t = some s) ∧
    (∀ t : List Char, p1Extract t = none → p2Extract t = none → p3Extract t = none →
      p4Extract t = none → extractSqlL t = none) ∧
    extractSql "SQL: SELECT a FROM t\n\n```sql\nSELECT b FROM u\n```" =
      some "SELECT a FROM t" := by
  refine ⟨?_, ?_, by decide⟩
  · intro t s h
    cases t with
    | nil => simp [p1Extract, findSubCI, lstartsWithCI] at h
    | cons c cs => simp [extractSqlL, h]
  · intro t h1 h2 h3 h4
    cases t with
    | nil => simp [extractSqlL]
    | cons c cs => simp [extractSqlL, h1, h2, h3, h4]

/-- C9 witness: the precedence theorem applied at a concrete text. -/
theorem extraction_precedence_witness :
    extractSqlL "SQL: SELECT 99\n\nmore".data = some "SELECT 99".data :=
  extraction_precedence.1 "SQL: SELECT 99\n\nmore".data "SELECT 99".data (by decide)

end InsightIQ
